import Mathlib

/-!
Shallow embedding of the sonde-search viewshed core and of the website API
client, together with proofs of the behavioural claims about them.

The repository ships the viewshed engine's documentation but not the engine's
own code, so the Elevation Store, Grid Generator, Line-of-Sight Tester and
Viewshed Orchestrator below are modelled from the specification's component
designs (each such definition says so in its doc comment).  The website API
client `buildUrl` is translated directly from
`src/website/frontend/assets/js/sondesearch-api.js`.

Machine reals are modelled as exact rationals; geographic coordinates,
bearings, ranges and elevations are all plain `ℚ` values.  Terrain lookup is
abstracted as a function from the distance along the observer→target path to
the elevation returned by the Elevation Store there (fallible lookups return
`Except ElevError ℚ`).
-/

namespace SondeViewshed

/-- Modelled from the spec (§7): the error a point elevation query surfaces
when no coverage tile can be obtained (`DownloadError` is retried and then
surfaced as `CoverageUnavailable`, so one constructor reaches callers). -/
inductive ElevError where
  | CoverageUnavailable
deriving DecidableEq

/-- Modelled from the spec (§4.4): the per-target-point failure when an
elevation lookup fails mid-path. -/
inductive LosError where
  | SampleUnavailable
deriving DecidableEq

/-- Modelled from the spec (§3): the visible/blocked flag of a Visibility
Result. -/
inductive Visibility where
  | visible
  | blocked
deriving DecidableEq

/-- Modelled from the spec (§7): the fatal error for degenerate grid
configurations. -/
inductive ViewshedError where
  | InvalidConfiguration
deriving DecidableEq

/-- Modelled from the spec (§4.4): Earth radius used by the curvature drop,
`R = 6,371,000 m`. -/
def R_earth : ℚ := 6371000

/-- Modelled from the spec (§4.4): the fixed Fresnel clearance margin, 10 m. -/
def fresnelMargin : ℚ := 10

/-- Modelled from the spec (§4.4): the sample indices `i = 1..20` used along
the observer→target path (a fixed number, 20, of evenly spaced samples). -/
def sampleIndices : List ℕ := (List.range 20).map fun j => j + 1

/-- Modelled from the spec (§4.4): the distance of sample `i` from the
observer, `di = d * i / 20`. -/
def sampleDist (d : ℚ) (i : ℕ) : ℚ := d * i / 20

/-- Modelled from the spec (§4.4): straight line-of-sight elevation at
distance `di` under the flat-Earth chord model,
`los_i = h0 + (ht - h0) * (di / d)`. -/
def losElev (h0 ht d di : ℚ) : ℚ := h0 + (ht - h0) * (di / d)

/-- Modelled from the spec (§4.4): Earth-curvature drop at distance `di`,
`curvature_i = di^2 / (2R)`. -/
def curveDrop (di : ℚ) : ℚ := di * di / (2 * R_earth)

/-- Modelled from the spec (§4.4): sample `i` is obstructed when its terrain
elevation `ei` satisfies `ei > (los_i - curvature_i) - 10`.  `elev` maps a
distance along the path to the terrain elevation there. -/
def obstructedAt (h0 ht d : ℚ) (elev : ℚ → ℚ) (i : ℕ) : Bool :=
  decide (elev (sampleDist d i) >
    losElev h0 ht d (sampleDist d i) - curveDrop (sampleDist d i) - fresnelMargin)

/-- Modelled from the spec (§4.4): the target is blocked when any of the 20
samples is obstructed; the target's own terrain elevation `ht = elev d` is the
last sample (`i = 20`). -/
def losBlocked (h0 d : ℚ) (elev : ℚ → ℚ) : Bool :=
  sampleIndices.any fun i => obstructedAt h0 (elev d) d elev i

/-- Boolean test for a failed `Except` result. -/
def exErr {ε α : Type} : Except ε α → Bool
  | .error _ => true
  | .ok _ => false

/-- Modelled from the spec (§4.4): whether any of the 20 elevation lookups
along the path fails (`CoverageUnavailable`); the lookup at `i = 20` is the
target's own elevation. -/
def lookupFails (elev : ℚ → Except ElevError ℚ) (d : ℚ) : Bool :=
  sampleIndices.any fun i => exErr (elev (sampleDist d i))

/-- Total view of a fallible elevation source (the default is never observed
on paths where every lookup succeeds). -/
def getElevD (elev : ℚ → Except ElevError ℚ) (x : ℚ) : ℚ :=
  match elev x with
  | .ok v => v
  | .error _ => 0

/-- Modelled from the spec (§4.4): classify one observer/target pair.  If any
elevation lookup fails mid-path the whole target point fails with
`SampleUnavailable`; otherwise the 20-sample curvature/clearance test decides
visible or blocked. -/
def losTest (h0 d : ℚ) (elev : ℚ → Except ElevError ℚ) : Except LosError Visibility :=
  if lookupFails elev d then .error .SampleUnavailable
  else if losBlocked h0 d (getElevD elev) then .ok .blocked
  else .ok .visible

/-- Modelled from the spec (§3): one node of the polar grid, a bearing in
degrees and a range in meters from the observer.  The destination coordinate
(computed by the Geodesic Engine) plays no role in the claims and is not
carried. -/
structure GridPoint where
  bearing : ℚ
  range : ℚ
deriving DecidableEq

/-- Modelled from the spec (§4.3): the number of range rings,
`floor (radius_m / resolution_m)`. -/
def gridRings (radius_m resolution_m : ℚ) : ℕ := (⌊radius_m / resolution_m⌋).toNat

/-- Modelled from the spec (§4.3): `radials` bearings evenly spaced over
`[0, 360)`, and for each bearing range rings at multiples of `resolution_m`
from `resolution_m` up to `radius_m` inclusive. -/
def gridPoints (radius_m resolution_m : ℚ) (radials : ℕ) : List GridPoint :=
  (List.range radials).flatMap fun (k : ℕ) =>
    (List.range (gridRings radius_m resolution_m)).map fun (j : ℕ) =>
      { bearing := 360 * (k : ℚ) / (radials : ℚ), range := ((j : ℚ) + 1) * resolution_m }

/-- Modelled from the spec (§4.3): build the polar sampling plan; degenerate
configurations (radius smaller than resolution, radials = 0, nonpositive
resolution) fail with `InvalidConfiguration` rather than silently returning an
empty grid. -/
def build_grid (radius_m resolution_m : ℚ) (radials : ℕ) :
    Except ViewshedError (List GridPoint) :=
  if radials = 0 ∨ resolution_m ≤ 0 ∨ radius_m < resolution_m then
    .error .InvalidConfiguration
  else
    .ok (gridPoints radius_m resolution_m radials)

/-- Modelled from the spec (§3, §4.5): the aggregate of one run — per-point
results plus visible/blocked counts and the count of points excluded because
their terrain lookup failed. -/
structure ViewshedResult where
  visible_count : ℕ
  blocked_count : ℕ
  excluded_count : ℕ
  results : List (GridPoint × Except LosError Visibility)

/-- Modelled from the spec (§4.5): the LOS result of one grid point; the
elevation source is indexed by bearing and by distance along that bearing's
path. -/
def pointResult (h0 : ℚ) (src : ℚ → ℚ → Except ElevError ℚ) (p : GridPoint) :
    Except LosError Visibility :=
  losTest h0 p.range (src p.bearing)

/-- Boolean test for a visible LOS result. -/
def isVis : Except LosError Visibility → Bool
  | .ok .visible => true
  | _ => false

/-- Boolean test for a blocked LOS result. -/
def isBlk : Except LosError Visibility → Bool
  | .ok .blocked => true
  | _ => false

/-- Modelled from the spec (§4.5): the per-point result list of one run. -/
def viewshedResults (h0 : ℚ) (grid : List GridPoint)
    (src : ℚ → ℚ → Except ElevError ℚ) : List (GridPoint × Except LosError Visibility) :=
  grid.map fun p => (p, pointResult h0 src p)

/-- Modelled from the spec (§4.5): run the LOS Tester over every grid point
and aggregate counts; a point whose lookups fail is excluded from the
visible/blocked counts (never defaulted to either) and tallied separately. -/
def compute (h0 : ℚ) (grid : List GridPoint) (src : ℚ → ℚ → Except ElevError ℚ) :
    ViewshedResult :=
  { visible_count := (viewshedResults h0 grid src).countP fun r => isVis r.2
    blocked_count := (viewshedResults h0 grid src).countP fun r => isBlk r.2
    excluded_count := (viewshedResults h0 grid src).countP fun r => exErr r.2
    results := viewshedResults h0 grid src }

/-- Modelled from the spec (§3, §4.1): the two supported elevation products. -/
inductive DemProduct where
  | SRTM1
  | SRTM3
deriving DecidableEq

/-- Modelled from the spec (§4.1): a deterministic cache key, derived from the
tile identifier (the 1°×1° cell's south-west corner) and the product. -/
structure TileKey where
  product : DemProduct
  lat : ℤ
  lon : ℤ
deriving DecidableEq

/-- Integer degrees from `a` to `b` inclusive. -/
def intRange (a b : ℤ) : List ℤ :=
  (List.range (b + 1 - a).toNat).map fun (k : ℕ) => a + (k : ℤ)

/-- Modelled from the spec (§4.1): the set of tile identifiers whose footprint
intersects the requested bounding box at the requested product resolution. -/
def tilesFor (min_lat min_lon max_lat max_lon : ℚ) (p : DemProduct) : List TileKey :=
  (intRange ⌊min_lat⌋ ⌊max_lat⌋).flatMap fun la =>
    (intRange ⌊min_lon⌋ ⌊max_lon⌋).map fun lo => { product := p, lat := la, lon := lo }

/-- Modelled from the spec (§4.1): the on-disk cache, abstracted to the set of
tile keys already stored. -/
structure CacheState where
  cached : List TileKey

/-- Modelled from the spec (§4.1): the tiles of the requested box that are not
already present in the cache — exactly the downloads `ensure_coverage`
issues. -/
def neededTiles (st : CacheState) (min_lat min_lon max_lat max_lon : ℚ)
    (p : DemProduct) : List TileKey :=
  (tilesFor min_lat min_lon max_lat max_lon p).filter fun t => decide (t ∉ st.cached)

/-- Modelled from the spec (§4.1): `ensure_coverage` downloads exactly the
tiles of the requested box that are not already present in the cache, and
stores them; it returns the new cache state and the list of downloads it
issued. -/
def ensure_coverage (st : CacheState) (min_lat min_lon max_lat max_lon : ℚ)
    (p : DemProduct) : CacheState × List TileKey :=
  ({ cached := st.cached ++ neededTiles st min_lat min_lon max_lat max_lon p },
    neededTiles st min_lat min_lon max_lat max_lon p)

/-- Modelled from the spec (§5, §9): the atomic operations on the Elevation
Store's tile-acquisition state — a caller requests a tile, or an in-flight
download completes.  The single mutex guarding the key→future map makes each
operation atomic, so an interleaving is a list of these actions. -/
inductive StoreAction where
  | request : TileKey → StoreAction
  | complete : TileKey → StoreAction

/-- Modelled from the spec (§5, §9): the shared state of the tile-acquisition
path — tiles already cached on disk and downloads currently in flight. -/
structure StoreState where
  cached : List TileKey
  inflight : List TileKey

/-- Modelled from the spec (§5, §9): one atomic step.  A request for a cached
or in-flight tile starts no download (the caller shares the existing result or
waits on the in-flight fetch); only a request for an unknown tile starts a
download.  The returned flag records whether a new download was started. -/
def storeStep (st : StoreState) : StoreAction → StoreState × Bool
  | .request t =>
    if t ∈ st.cached ∨ t ∈ st.inflight then (st, false)
    else ({ st with inflight := t :: st.inflight }, true)
  | .complete t =>
    ({ cached := t :: st.cached, inflight := st.inflight.erase t }, false)

/-- Run a whole interleaving of store actions from a state. -/
def runTrace (st : StoreState) : List StoreAction → StoreState
  | [] => st
  | a :: rest => runTrace (storeStep st a).1 rest

/-- Translated from `sondesearch-api.js` (strings are embedded as `List Char`):
the base URL chosen at build time by the Jekyll `site.dev_mode` switch. -/
def getBaseUrl (devMode : Bool) : List Char :=
  if devMode then "http://localhost:4001/".data
  else "https://api.sondesearch.lectrobox.com/api/v2/".data

/-- Translated from `sondesearch-api.js` (`buildUrl`): remove a single leading
slash from the endpoint if one is present (`endpoint.startsWith('/')` followed
by `endpoint.substring(1)`). -/
def stripLeadingSlash (e : List Char) : List Char :=
  if e.head? = some '/' then e.tail else e

/-- Translated from `sondesearch-api.js` (`buildUrl`): the base URL
concatenated with the endpoint stripped of a single leading slash. -/
def buildUrl (devMode : Bool) (endpoint : List Char) : List Char :=
  getBaseUrl devMode ++ stripLeadingSlash endpoint

/-! Helper lemmas shared by the claim theorems. -/

theorem mem_sampleIndices {i : ℕ} : i ∈ sampleIndices ↔ 1 ≤ i ∧ i ≤ 20 := by
  simp only [sampleIndices, List.mem_map, List.mem_range]
  constructor
  · rintro ⟨j, hj, rfl⟩
    omega
  · rintro ⟨h1, h2⟩
    exact ⟨i - 1, by omega, by omega⟩

theorem sampleDist_last (d : ℚ) : sampleDist d 20 = d := by
  rw [sampleDist]
  norm_num

theorem build_grid_ok_inv {radius res : ℚ} {radials : ℕ} {g : List GridPoint}
    (hok : build_grid radius res radials = Except.ok g) :
    radials ≠ 0 ∧ 0 < res ∧ res ≤ radius ∧ g = gridPoints radius res radials := by
  rw [build_grid] at hok
  by_cases hc : radials = 0 ∨ res ≤ 0 ∨ radius < res
  · rw [if_pos hc] at hok
    exact absurd hok (by simp)
  · rw [if_neg hc] at hok
    push_neg at hc
    injection hok with h
    exact ⟨hc.1, hc.2.1, hc.2.2, h.symm⟩

theorem gridPoints_length (radius res : ℚ) (radials : ℕ) :
    (gridPoints radius res radials).length = radials * gridRings radius res := by
  rw [gridPoints, List.length_flatMap]
  simp [Function.comp_def, List.map_const', List.sum_replicate, smul_eq_mul]

theorem mem_gridPoints {radius res : ℚ} {radials : ℕ} {p : GridPoint} :
    p ∈ gridPoints radius res radials ↔
      ∃ k j : ℕ, k < radials ∧ 1 ≤ j ∧ j ≤ gridRings radius res ∧
        p.bearing = 360 * k / radials ∧ p.range = j * res := by
  rw [gridPoints]
  rw [List.mem_flatMap]
  constructor
  · rintro ⟨k, hk, hp⟩
    rw [List.mem_map] at hp
    obtain ⟨j, hj, hpe⟩ := hp
    rw [List.mem_range] at hk hj
    refine ⟨k, j + 1, hk, by omega, by omega, ?_, ?_⟩
    · rw [← hpe]
    · rw [← hpe]
      push_cast
      ring
  · rintro ⟨k, j, hk, hj1, hj2, hb, hr⟩
    refine ⟨k, List.mem_range.mpr hk, ?_⟩
    rw [List.mem_map]
    refine ⟨j - 1, List.mem_range.mpr (by omega), ?_⟩
    have hcast : ((j - 1 : ℕ) : ℚ) + 1 = (j : ℚ) := by
      have h1 : (1 : ℕ) ≤ j := hj1
      push_cast [Nat.cast_sub h1]
      ring
    cases p with
    | mk b r =>
      simp only [GridPoint.mk.injEq]
      exact ⟨hb.symm, by rw [hcast, ← hr]⟩

theorem gridRings_pos {radius res : ℚ} (hres : 0 < res) (hle : res ≤ radius) :
    1 ≤ gridRings radius res := by
  rw [gridRings]
  have h1 : (1 : ℤ) ≤ ⌊radius / res⌋ := by
    rw [Int.le_floor]
    push_cast
    rw [le_div_iff₀ hres]
    linarith
  omega

theorem grid_range_bounds {radius res : ℚ} {radials : ℕ} {g : List GridPoint}
    (hok : build_grid radius res radials = Except.ok g) :
    ∀ p ∈ g, res ≤ p.range ∧ 0 < p.range := by
  obtain ⟨-, hres, -, rfl⟩ := build_grid_ok_inv hok
  intro p hp
  obtain ⟨k, j, -, hj1, -, -, hr⟩ := mem_gridPoints.mp hp
  have hj : (1 : ℚ) ≤ (j : ℚ) := by exact_mod_cast hj1
  constructor
  · rw [hr]
    nlinarith
  · rw [hr]
    positivity

theorem compute_results_fst {h0 : ℚ} {grid : List GridPoint}
    {src : ℚ → ℚ → Except ElevError ℚ} {q : GridPoint × Except LosError Visibility}
    (hq : q ∈ (compute h0 grid src).results) : q.1 ∈ grid := by
  simp only [compute, viewshedResults, List.mem_map] at hq
  obtain ⟨p, hp, rfl⟩ := hq
  exact hp

/-! Claim theorems. -/

/-- C1: for every observer total antenna elevation `h0`, every terrain
function, and every target at distance `d > 0`, the Line-of-Sight Tester
evaluates exactly 20 samples at `di = d * i / 20` for `i = 1..20` (so the
final sample coincides with the target), and classifies the target blocked iff
for some `i` the sampled elevation `ei` satisfies
`ei > (h0 + (ht - h0) * (di / d) - di^2 / (2R)) - 10` with `R = 6,371,000`;
otherwise the target is visible. -/
theorem losTester_matches_claimed_formula (h0 d : ℚ) (elev : ℚ → ℚ) (_hd : 0 < d) :
    sampleIndices.length = 20 ∧
    (∀ i, i ∈ sampleIndices ↔ 1 ≤ i ∧ i ≤ 20) ∧
    sampleDist d 20 = d ∧
    (losBlocked h0 d elev = true ↔
      ∃ i : ℕ, 1 ≤ i ∧ i ≤ 20 ∧
        elev (d * i / 20) >
          (h0 + (elev d - h0) * ((d * i / 20) / d) -
            (d * i / 20) * (d * i / 20) / (2 * 6371000)) - 10) := by
  refine ⟨by simp [sampleIndices], fun i => mem_sampleIndices, sampleDist_last d, ?_⟩
  rw [losBlocked, List.any_eq_true]
  constructor
  · rintro ⟨i, hmem, hobs⟩
    obtain ⟨h1, h2⟩ := mem_sampleIndices.mp hmem
    rw [obstructedAt, decide_eq_true_iff] at hobs
    refine ⟨i, h1, h2, ?_⟩
    simpa only [losElev, curveDrop, sampleDist, R_earth, fresnelMargin] using hobs
  · rintro ⟨i, h1, h2, hgt⟩
    refine ⟨i, mem_sampleIndices.mpr ⟨h1, h2⟩, ?_⟩
    rw [obstructedAt, decide_eq_true_iff]
    simpa only [losElev, curveDrop, sampleDist, R_earth, fresnelMargin] using hgt

/-- Witness for the C1 theorem at `h0 = 30`, `d = 100`, constant-zero
terrain. -/
theorem losTester_matches_claimed_formula_witness :
    (0 : ℚ) < 100 ∧
    (sampleIndices.length = 20 ∧
      (∀ i, i ∈ sampleIndices ↔ 1 ≤ i ∧ i ≤ 20) ∧
      sampleDist (100 : ℚ) 20 = 100 ∧
      (losBlocked 30 100 (fun _ => 0) = true ↔
        ∃ i : ℕ, 1 ≤ i ∧ i ≤ 20 ∧
          (0 : ℚ) >
            ((30 : ℚ) + (0 - 30) * (((100 : ℚ) * i / 20) / 100) -
              ((100 : ℚ) * i / 20) * ((100 : ℚ) * i / 20) / (2 * 6371000)) - 10)) :=
  ⟨by norm_num, losTester_matches_claimed_formula 30 100 (fun _ => 0) (by norm_num)⟩

/-- C2 (failing evaluation): with the constant-zero synthetic terrain and
antenna elevation `h = 30 > 10`, a target at `d = 1000` m satisfies
`d^2 ≤ 2R(h - 10)` (it is inside the claimed visible range of about 15.96 km),
yet the modelled Line-of-Sight Tester classifies it blocked: the final sample
`i = 20` always violates the 10 m clearance. -/
theorem flatTerrain_blocked_within_claimed_range :
    losBlocked 30 1000 (fun _ => 0) = true ∧
    (10 : ℚ) < 30 ∧ (1000 : ℚ) * 1000 ≤ 2 * 6371000 * (30 - 10) := by
  refine ⟨?_, by norm_num, by norm_num⟩
  rw [losBlocked, List.any_eq_true]
  refine ⟨20, mem_sampleIndices.mpr ⟨by omega, by omega⟩, ?_⟩
  rw [obstructedAt, decide_eq_true_iff]
  norm_num [losElev, curveDrop, sampleDist, R_earth, fresnelMargin]

/-- C3: every accepted configuration yields exactly
`radials * floor (radius_m / resolution_m)` Sample Points, namely the
`radials` evenly spaced bearings paired with every positive multiple of
`resolution_m` up to `radius_m` inclusive. -/
theorem build_grid_spec (radius res : ℚ) (radials : ℕ) (g : List GridPoint)
    (hok : build_grid radius res radials = Except.ok g) :
    g.length = radials * gridRings radius res ∧
    (∀ p, p ∈ g ↔ ∃ k j : ℕ, k < radials ∧ 1 ≤ j ∧ j ≤ gridRings radius res ∧
      p.bearing = 360 * k / radials ∧ p.range = j * res) ∧
    (∀ j : ℕ, 1 ≤ j → ((j : ℚ) * res ≤ radius ↔ j ≤ gridRings radius res)) := by
  obtain ⟨-, hres, -, rfl⟩ := build_grid_ok_inv hok
  refine ⟨gridPoints_length radius res radials, fun p => mem_gridPoints, ?_⟩
  intro j hj
  have key : ((j : ℚ) * res ≤ radius) ↔ ((j : ℤ) ≤ ⌊radius / res⌋) := by
    rw [Int.le_floor]
    rw [le_div_iff₀ hres]
    push_cast
    rfl
  rw [key, gridRings]
  omega

/-- Witness for the C3 theorem: the standard preset `radius_km = 50`,
`resolution_km = 1`, `radials = 36` produces exactly 1800 points. -/
theorem build_grid_spec_witness :
    (gridPoints 50000 1000 36).length = 1800 := by
  have hok : build_grid 50000 1000 36 = Except.ok (gridPoints 50000 1000 36) := by
    rw [build_grid, if_neg (by norm_num)]
  have h := (build_grid_spec 50000 1000 36 (gridPoints 50000 1000 36) hok).1
  rw [h, gridRings]
  norm_num
  rfl

/-- C7: for every accepted configuration, the observer's own cell at range 0
is never among the produced Sample Points — every produced point has range at
least `resolution_m` (in particular nonzero) — and no range-0 entry appears in
the per-point results of a run over that grid. -/
theorem grid_excludes_origin (radius res : ℚ) (radials : ℕ) (g : List GridPoint)
    (hok : build_grid radius res radials = Except.ok g) :
    (∀ p ∈ g, res ≤ p.range ∧ p.range ≠ 0) ∧
    (∀ (h0 : ℚ) (src : ℚ → ℚ → Except ElevError ℚ)
      (q : GridPoint × Except LosError Visibility),
      q ∈ (compute h0 g src).results → res ≤ q.1.range ∧ q.1.range ≠ 0) := by
  have hpt : ∀ p ∈ g, res ≤ p.range ∧ p.range ≠ 0 := by
    intro p hp
    obtain ⟨hres, hpos⟩ := grid_range_bounds hok p hp
    exact ⟨hres, ne_of_gt hpos⟩
  exact ⟨hpt, fun h0 src q hq => hpt q.1 (compute_results_fst hq)⟩

/-- Witness for the C7 theorem at the first ring of a one-radial grid with
`radius = 2000`, `resolution = 1000`. -/
theorem grid_excludes_origin_witness :
    (1000 : ℚ) ≤ (GridPoint.mk 0 1000).range ∧ (GridPoint.mk 0 1000).range ≠ 0 := by
  have hr : (1 : ℕ) ≤ gridRings 2000 1000 := by
    have h2 : ⌊(2000 : ℚ) / 1000⌋ = 2 := by norm_num
    rw [gridRings, h2]
    omega
  exact (grid_excludes_origin 2000 1000 1 (gridPoints 2000 1000 1)
    (by rw [build_grid, if_neg (by norm_num)])).1 (GridPoint.mk 0 1000)
    (mem_gridPoints.mpr ⟨0, 1, by omega, by omega, hr, by norm_num, by norm_num⟩)

/-- C8: degenerate configurations — radius smaller than resolution, or zero
radials — fail with `InvalidConfiguration`, and `build_grid` returns a grid
only when it has at least one point (it never silently returns an empty
grid). -/
theorem build_grid_degenerate (radius res : ℚ) (radials : ℕ) :
    ((radius < res ∨ radials = 0) →
      build_grid radius res radials = Except.error ViewshedError.InvalidConfiguration) ∧
    (∀ g, build_grid radius res radials = Except.ok g → g ≠ []) := by
  constructor
  · intro h
    rw [build_grid, if_pos]
    rcases h with h | h
    · exact Or.inr (Or.inr h)
    · exact Or.inl h
  · intro g hok
    obtain ⟨hrad, hres, hle, rfl⟩ := build_grid_ok_inv hok
    have hring : 1 ≤ gridRings radius res := gridRings_pos hres hle
    have hlen : (gridPoints radius res radials).length = radials * gridRings radius res :=
      gridPoints_length radius res radials
    have hpos : 0 < (gridPoints radius res radials).length := by
      rw [hlen]
      exact Nat.mul_pos (Nat.pos_of_ne_zero hrad) hring
    exact List.ne_nil_of_length_pos hpos

/-- Witness for the C8 theorem: a 500 m radius with 1000 m resolution is
rejected as an invalid configuration. -/
theorem build_grid_degenerate_witness :
    build_grid 500 1000 36 = Except.error ViewshedError.InvalidConfiguration :=
  (build_grid_degenerate 500 1000 36).1 (Or.inl (by norm_num))

theorem res_counts (l : List (Except LosError Visibility)) :
    l.countP isVis + l.countP isBlk + l.countP exErr = l.length := by
  induction l with
  | nil => rfl
  | cons x rest ih =>
    rcases x with e | v
    · simp [List.countP_cons, isVis, isBlk, exErr]
      omega
    · rcases v <;> simp [List.countP_cons, isVis, isBlk, exErr] <;> omega

theorem exErr_pointResult (h0 : ℚ) (src : ℚ → ℚ → Except ElevError ℚ) (p : GridPoint) :
    exErr (pointResult h0 src p) = lookupFails (src p.bearing) p.range := by
  rw [pointResult, losTest]
  cases hb : lookupFails (src p.bearing) p.range with
  | true => simp [exErr]
  | false =>
    simp only [Bool.false_eq_true, if_false]
    cases hlb : losBlocked h0 p.range (getElevD (src p.bearing)) <;> simp [exErr]

theorem compute_counts (h0 : ℚ) (grid : List GridPoint)
    (src : ℚ → ℚ → Except ElevError ℚ) :
    (compute h0 grid src).visible_count + (compute h0 grid src).blocked_count +
      (compute h0 grid src).excluded_count = grid.length ∧
    (compute h0 grid src).excluded_count =
      grid.countP fun p => lookupFails (src p.bearing) p.range := by
  constructor
  · have h := res_counts (grid.map fun p => pointResult h0 src p)
    simp only [List.countP_map, List.length_map, Function.comp_def] at h
    simp only [compute, viewshedResults, List.countP_map, Function.comp_def,
      List.length_map]
    exact h
  · simp only [compute, viewshedResults, List.countP_map, Function.comp_def]
    apply List.countP_congr
    intro p _
    rw [exErr_pointResult h0 src p]

theorem lookupFails_total (f : ℚ → ℚ) (d : ℚ) :
    lookupFails (fun x => Except.ok (f x)) d = false := by
  rw [lookupFails, List.any_eq_false]
  intro i _
  simp [exErr]

theorem getElevD_total (f : ℚ → ℚ) : getElevD (fun x => Except.ok (f x)) = f := by
  funext x
  rfl

theorem losTest_total (h0 d : ℚ) (f1 : ℚ → ℚ) :
    losTest h0 d (fun x => Except.ok (f1 x)) =
      Except.ok (if losBlocked h0 d f1 then Visibility.blocked else Visibility.visible) := by
  rw [losTest, lookupFails_total, getElevD_total]
  cases hlb : losBlocked h0 d f1 <;> simp [hlb]

theorem compute_visible_total (h0 : ℚ) (grid : List GridPoint) (f : ℚ → ℚ → ℚ) :
    (compute h0 grid fun b x => Except.ok (f b x)).visible_count =
      grid.countP fun p => !losBlocked h0 p.range (f p.bearing) := by
  simp only [compute, viewshedResults, List.countP_map, Function.comp_def]
  apply List.countP_congr
  intro p _
  simp only [pointResult]
  rw [losTest_total h0 p.range (f p.bearing)]
  cases hlb : losBlocked h0 p.range (f p.bearing) <;> simp [isVis, hlb]

theorem losBlocked_anti {hA hB d : ℚ} (f : ℚ → ℚ) (hd : 0 < d) (hh : hA ≤ hB)
    (hblk : losBlocked hB d f = true) : losBlocked hA d f = true := by
  rw [losBlocked, List.any_eq_true] at hblk ⊢
  obtain ⟨i, hmem, hobs⟩ := hblk
  refine ⟨i, hmem, ?_⟩
  obtain ⟨h1, h2⟩ := mem_sampleIndices.mp hmem
  rw [obstructedAt, decide_eq_true_iff] at hobs ⊢
  have hdne : d ≠ 0 := ne_of_gt hd
  have hdi : sampleDist d i / d = (i : ℚ) / 20 := by
    rw [sampleDist]
    field_simp
    ring
  have ht1 : (i : ℚ) / 20 ≤ 1 := by
    rw [div_le_one (by norm_num : (0 : ℚ) < 20)]
    exact_mod_cast h2
  have hlos : losElev hA (f d) d (sampleDist d i) ≤ losElev hB (f d) d (sampleDist d i) := by
    rw [losElev, losElev, hdi]
    nlinarith [mul_nonneg (sub_nonneg.mpr hh) (sub_nonneg.mpr ht1)]
  linarith

theorem intRange_nodup (a b : ℤ) : (intRange a b).Nodup := by
  rw [intRange]
  refine List.Nodup.map ?_ (List.nodup_range _)
  intro x y hxy
  simp only at hxy
  omega

theorem tilesFor_nodup (mla mlo bla blo : ℚ) (p : DemProduct) :
    (tilesFor mla mlo bla blo p).Nodup := by
  rw [tilesFor, List.nodup_flatMap]
  constructor
  · intro la _
    refine List.Nodup.map ?_ (intRange_nodup _ _)
    intro x y hxy
    simp only [TileKey.mk.injEq] at hxy
    exact hxy.2.2
  · refine List.Pairwise.imp ?_ (intRange_nodup ⌊mla⌋ ⌊bla⌋)
    intro la lb hne
    simp only [Function.onFun, List.Disjoint]
    intro t ht1 ht2
    rw [List.mem_map] at ht1 ht2
    obtain ⟨lo1, -, rfl⟩ := ht1
    obtain ⟨lo2, -, h2⟩ := ht2
    exact hne (congrArg TileKey.lat h2).symm

theorem storeStep_nodup {st : StoreState} (a : StoreAction)
    (h : st.inflight.Nodup) : (storeStep st a).1.inflight.Nodup := by
  cases a with
  | request t =>
    simp only [storeStep]
    split
    · exact h
    · next hc =>
      push_neg at hc
      exact List.nodup_cons.mpr ⟨hc.2, h⟩
  | complete t =>
    simp only [storeStep]
    exact h.erase t

theorem runTrace_nodup (tr : List StoreAction) :
    ∀ st : StoreState, st.inflight.Nodup → (runTrace st tr).inflight.Nodup := by
  induction tr with
  | nil => exact fun _ h => h
  | cons a rest ih => exact fun st h => ih _ (storeStep_nodup a h)

/-- C4: if exactly one Sample Point's terrain lookup fails
(`CoverageUnavailable`), that point fails with `SampleUnavailable`, the run
still completes with a `ViewshedResult` whose excluded count is 1 (the
Orchestrator surfaces the reduced sample count), and the aggregate visible
plus blocked counts equal the total number of points minus one. -/
theorem compute_partial_failure (h0 : ℚ) (grid : List GridPoint)
    (src : ℚ → ℚ → Except ElevError ℚ)
    (hone : (grid.countP fun p => lookupFails (src p.bearing) p.range) = 1) :
    (∀ p ∈ grid, lookupFails (src p.bearing) p.range = true →
      pointResult h0 src p = Except.error LosError.SampleUnavailable) ∧
    (compute h0 grid src).excluded_count = 1 ∧
    (compute h0 grid src).visible_count + (compute h0 grid src).blocked_count + 1 =
      grid.length := by
  obtain ⟨hsum, hexc⟩ := compute_counts h0 grid src
  refine ⟨?_, ?_, ?_⟩
  · intro p _ hfail
    rw [pointResult, losTest, if_pos hfail]
  · rw [hexc, hone]
  · rw [hexc, hone] at hsum
    omega

/-- Witness for the C4 theorem: a two-point grid whose bearing-0 point has a
failing terrain source. -/
theorem compute_partial_failure_witness :
    (compute 30 [{ bearing := 0, range := 1000 }, { bearing := 90, range := 1000 }]
        fun b _ => if b = 0 then Except.error ElevError.CoverageUnavailable
          else Except.ok 0).excluded_count = 1 ∧
    (compute 30 [{ bearing := 0, range := 1000 }, { bearing := 90, range := 1000 }]
        fun b _ => if b = 0 then Except.error ElevError.CoverageUnavailable
          else Except.ok 0).visible_count +
      (compute 30 [{ bearing := 0, range := 1000 }, { bearing := 90, range := 1000 }]
        fun b _ => if b = 0 then Except.error ElevError.CoverageUnavailable
          else Except.ok 0).blocked_count + 1 = 2 := by
  have e1 : lookupFails (fun _ => Except.error ElevError.CoverageUnavailable) (1000 : ℚ)
      = true := by
    rw [lookupFails, List.any_eq_true]
    exact ⟨1, mem_sampleIndices.mpr ⟨by omega, by omega⟩, rfl⟩
  have e2 : lookupFails (fun _ => (Except.ok 0 : Except ElevError ℚ)) (1000 : ℚ)
      = false := by
    rw [lookupFails, List.any_eq_false]
    intro i _
    simp [exErr]
  have h := compute_partial_failure 30
    [{ bearing := 0, range := 1000 }, { bearing := 90, range := 1000 }]
    (fun b _ => if b = 0 then Except.error ElevError.CoverageUnavailable else Except.ok 0)
    (by
      simp only [List.countP_cons, List.countP_nil]
      norm_num
      rw [e1, e2]
      rfl)
  exact ⟨h.2.1, h.2.2⟩

/-- C5: `ensure_coverage` never downloads a tile already in the cache, issues
at most one download per tile, and a second call with the same bounding box
and product performs no downloads and leaves the cache state unchanged. -/
theorem ensure_coverage_idempotent (st : CacheState) (mla mlo bla blo : ℚ)
    (p : DemProduct) :
    (∀ t ∈ (ensure_coverage st mla mlo bla blo p).2, t ∉ st.cached) ∧
    (ensure_coverage st mla mlo bla blo p).2.Nodup ∧
    (ensure_coverage (ensure_coverage st mla mlo bla blo p).1 mla mlo bla blo p).2 = [] ∧
    (ensure_coverage (ensure_coverage st mla mlo bla blo p).1 mla mlo bla blo p).1 =
      (ensure_coverage st mla mlo bla blo p).1 := by
  have hsnd : ∀ st1 : CacheState, (ensure_coverage st1 mla mlo bla blo p).2 =
      neededTiles st1 mla mlo bla blo p := fun _ => rfl
  have hmem : ∀ (st1 : CacheState) (t : TileKey),
      t ∈ neededTiles st1 mla mlo bla blo p → t ∉ st1.cached := by
    intro st1 t ht
    rw [neededTiles, List.mem_filter, decide_eq_true_iff] at ht
    exact ht.2
  have hnil : neededTiles (ensure_coverage st mla mlo bla blo p).1 mla mlo bla blo p
      = [] := by
    rw [neededTiles, List.filter_eq_nil_iff]
    intro t ht
    rw [decide_eq_true_iff]
    intro hnot
    apply hnot
    show t ∈ st.cached ++ neededTiles st mla mlo bla blo p
    rw [List.mem_append]
    by_cases hc : t ∈ st.cached
    · exact Or.inl hc
    · refine Or.inr ?_
      rw [neededTiles, List.mem_filter, decide_eq_true_iff]
      exact ⟨ht, hc⟩
  refine ⟨fun t ht => hmem st t ht, ?_, hnil, ?_⟩
  · exact (tilesFor_nodup mla mlo bla blo p).filter _
  · show ({ cached := (ensure_coverage st mla mlo bla blo p).1.cached ++
        neededTiles (ensure_coverage st mla mlo bla blo p).1 mla mlo bla blo p } :
        CacheState) = (ensure_coverage st mla mlo bla blo p).1
    rw [hnil, List.append_nil]

/-- Witness for the C5 theorem: a second call over the empty-cache state's
result performs no downloads. -/
theorem ensure_coverage_idempotent_witness :
    (ensure_coverage (ensure_coverage { cached := [] } 0 0 0 0 DemProduct.SRTM3).1
      0 0 0 0 DemProduct.SRTM3).2 = [] :=
  (ensure_coverage_idempotent { cached := [] } 0 0 0 0 DemProduct.SRTM3).2.2.1

/-- C6: with a fixed terrain function and a fixed grid produced by
`build_grid`, raising the antenna height never decreases the visible count:
for heights `a1 ≤ a2` above the same ground elevation, the run at `a2` reports
at least as many visible points as the run at `a1`. -/
theorem visible_count_monotone_in_height (ground a1 a2 radius res : ℚ) (radials : ℕ)
    (grid : List GridPoint) (f : ℚ → ℚ → ℚ)
    (hok : build_grid radius res radials = Except.ok grid) (hh : a1 ≤ a2) :
    (compute (ground + a1) grid fun b x => Except.ok (f b x)).visible_count ≤
      (compute (ground + a2) grid fun b x => Except.ok (f b x)).visible_count := by
  rw [compute_visible_total, compute_visible_total]
  apply List.countP_mono_left
  intro p hp h1
  rw [Bool.not_eq_true'] at h1 ⊢
  by_contra hc
  rw [Bool.not_eq_false] at hc
  have hd : 0 < p.range := (grid_range_bounds hok p hp).2
  have hanti := losBlocked_anti (f p.bearing) hd
    (by linarith : ground + a1 ≤ ground + a2) hc
  rw [h1] at hanti
  exact Bool.false_ne_true hanti

/-- Witness for the C6 theorem on a two-ring, one-radial grid over flat
terrain, with heights 10 and 20. -/
theorem visible_count_monotone_in_height_witness :
    (compute (0 + 10) (gridPoints 2000 1000 1) fun _ _ =>
      (Except.ok 0 : Except ElevError ℚ)).visible_count ≤
    (compute (0 + 20) (gridPoints 2000 1000 1) fun _ _ =>
      (Except.ok 0 : Except ElevError ℚ)).visible_count :=
  visible_count_monotone_in_height 0 10 20 2000 1000 1 (gridPoints 2000 1000 1)
    (fun _ _ => 0) (by rw [build_grid, if_neg (by norm_num)]) (by norm_num)

/-- C9: under every interleaving of atomic tile-store actions starting from a
state with no duplicate in-flight downloads, the in-flight list never holds
two downloads for the same tile key, and a request for a tile whose download
is already in flight starts no new download and leaves the state unchanged
(the caller waits on the in-flight fetch). -/
theorem store_single_flight (st : StoreState) (tr : List StoreAction) (t : TileKey)
    (hnd : st.inflight.Nodup) :
    (runTrace st tr).inflight.Nodup ∧
    (t ∈ st.inflight → storeStep st (StoreAction.request t) = (st, false)) := by
  refine ⟨runTrace_nodup tr st hnd, ?_⟩
  intro hmem
  simp only [storeStep]
  rw [if_pos (Or.inr hmem)]

/-- Witness for the C9 theorem: one tile in flight, a concurrent request for
the same tile. -/
theorem store_single_flight_witness :
    storeStep
      { cached := [], inflight := [{ product := DemProduct.SRTM3, lat := 47, lon := -123 }] }
      (StoreAction.request { product := DemProduct.SRTM3, lat := 47, lon := -123 }) =
    ({ cached := [], inflight := [{ product := DemProduct.SRTM3, lat := 47, lon := -123 }] },
      false) :=
  (store_single_flight
    { cached := [], inflight := [{ product := DemProduct.SRTM3, lat := 47, lon := -123 }] }
    [] { product := DemProduct.SRTM3, lat := 47, lon := -123 }
    (by simp)).2 (by simp)

/-- C10: `buildUrl` returns the base URL concatenated with the endpoint
stripped of a single leading slash, so an endpoint passed with or without a
leading slash yields the same URL. -/
theorem buildUrl_slash_insensitive (devMode : Bool) (e : List Char) :
    buildUrl devMode e = getBaseUrl devMode ++ stripLeadingSlash e ∧
    (e.head? ≠ some '/' → buildUrl devMode ('/' :: e) = buildUrl devMode e) := by
  refine ⟨rfl, ?_⟩
  intro h
  rw [buildUrl, buildUrl]
  have h1 : stripLeadingSlash ('/' :: e) = e := by
    rw [stripLeadingSlash, if_pos (show ('/' :: e).head? = some '/' from rfl)]
    rfl
  have h2 : stripLeadingSlash e = e := by
    rw [stripLeadingSlash, if_neg h]
  rw [h1, h2]

/-- Witness for the C10 theorem at the endpoint `get_config` in production
mode. -/
theorem buildUrl_slash_insensitive_witness :
    buildUrl false ('/' :: "get_config".data) = buildUrl false "get_config".data :=
  (buildUrl_slash_insensitive false "get_config".data).2 (by decide)

end SondeViewshed
